import Mathlib

/-!
# Verification of the girc connection and dispatch engine

Shallow embedding of the girc IRC client library core (conn.go, handler.go)
and proofs about its rate limiter, supervisory loops, and handler registry.

Durations are modelled as integer nanoseconds (Go's time.Duration is an
int64 nanosecond count); Go maps are modelled as functions into Option;
channel sends are modelled as lists of pushed values; mutexes are erased
except where a claim hinges on lock behaviour, in which case the RWMutex
acquisition rules are modelled explicitly.
-/

namespace Girc

/-- Go's time.Second: one second in nanoseconds (time.Duration units). -/
def second : Int := 1000000000

/-! ## Rate limiter (conn.go, func (c *ircConn) rate) -/

/-- The rate-limiter-relevant fields of ircConn: lastWrite is the time of
the last write to the server, writeDelay the accumulated rate-limit debt.
Both in nanoseconds. -/
structure ConnRateState where
  lastWrite : Int
  writeDelay : Int
deriving Repr, DecidableEq

/-- The per-message cost computed by rate:
`_time := time.Second + ((time.Duration(chars) * time.Second) / 100)`.
All quantities are nonnegative, so Go's truncating int64 division and
Lean's Int division agree. -/
def rateCost (chars : Nat) : Int :=
  second + ((chars : Int) * second) / 100

/-- func (c *ircConn) rate(chars int) time.Duration, with the mutex erased
and the current time passed explicitly. Returns the updated state and the
returned wait duration:
  c.writeDelay += _time - time.Now().Sub(c.lastWrite); clamp below at 0;
  return _time if c.writeDelay > 8*time.Second else 0. -/
def rate (c : ConnRateState) (chars : Nat) (now : Int) : ConnRateState × Int :=
  let t := rateCost chars
  let d := c.writeDelay + (t - (now - c.lastWrite))
  let d := if d < 0 then 0 else d
  ({ c with writeDelay := d }, if d > 8 * second then t else 0)

/-! ## Events and errors -/

/-- The fields of girc's Event used by the embedded core (the full Event
type lives in the out-of-scope codec; commands, parameters and the
trailing part are what the core reads and builds). -/
structure Event where
  Command : String
  Params : List String := []
  Trailing : String := ""
deriving Repr, DecidableEq

/-- Go errors are carried as their message strings. -/
def GoError := String
deriving instance Repr, DecidableEq for GoError

/-! ## Read loop (conn.go, func (c *Client) readLoop) -/

/-- Observable effects of one pass of readLoop's decode branch: values
sent on the errs channel, values sent on the rx (inbound) queue — an
Event pointer, which may be nil —, and whether the loop returned. -/
structure ReadIterEffects where
  errsPushed : List GoError
  rxPushed : List (Option Event)
  exits : Bool
deriving Repr, DecidableEq

/-- One iteration of readLoop's default branch, given the result of
c.conn.decode() (on failure decode returns a nil event and an error):
  event, err = c.conn.decode()
  if err != nil { errs <- err }
  c.rx <- event
There is no return or continue in the error branch: the nil event is
pushed onto rx and the loop keeps going. -/
def readLoopIter (decoded : Option Event × Option GoError) : ReadIterEffects :=
  let event := decoded.1
  let err := decoded.2
  { errsPushed := match err with | some e => [e] | none => []
  , rxPushed := [event]
  , exits := false }

/-! ## Ping loop (conn.go, func (c *Client) pingLoop) -/

/-- Go sync.RWMutex: Lock() blocks until every read lock has been
released. A goroutine that tries to take the write lock while it itself
still holds a read lock therefore blocks forever; a blocking acquisition
is modelled as none. -/
def wlockAcquire (readersHeldBySelf : Nat) : Option Unit :=
  if readersHeldBySelf = 0 then some () else none

/-- Observable effects of one tick of pingLoop: whether ErrTimedOut was
pushed onto errs (and the loop returned), the recorded lastPing time, and
the nonce of the PING sent via c.Commands.Ping. -/
structure PingTickEffects where
  timedOut : Bool
  newLastPing : Option Int
  pingSentNonce : Option Int
deriving Repr, DecidableEq

/-- One tick of pingLoop, with times in nanoseconds. The tick body is
  c.conn.mu.RLock(); defer c.conn.mu.RUnlock()
  if time.Since(c.conn.lastPong) > c.Config.PingDelay+(60*time.Second) {
      errs <- ErrTimedOut; return }
  c.conn.mu.Lock(); c.conn.lastPing = time.Now(); c.conn.mu.Unlock()
  c.Commands.Ping(now)
The deferred RUnlock only runs when pingLoop itself returns, so the read
lock is still held by this goroutine when mu.Lock() is attempted in the
healthy branch; the result none means that acquisition blocks forever. -/
def pingTick (now lastPong pingDelay : Int) : Option PingTickEffects :=
  let readersHeldBySelf := 1
  if now - lastPong > pingDelay + 60 * second then
    some { timedOut := true, newLastPing := none, pingSentNonce := none }
  else
    match wlockAcquire readersHeldBySelf with
    | none => none
    | some _ =>
        some { timedOut := false, newLastPing := some now, pingSentNonce := some now }

/-! ## Handler registry (handler.go) -/

/-- const letterBytes = "abcdefghijklmnopqrstuvwxyzABCDEFGHIJKLMNOPQRSTUVWXYZ" -/
def letterBytes : String :=
  "abcdefghijklmnopqrstuvwxyzABCDEFGHIJKLMNOPQRSTUVWXYZ"

/-- The random identifier built inside cuid: n characters drawn from
letterBytes at index rand.Int63() % 52, the stream of random draws being
passed in as rng. -/
def genUID (rng : Nat → Nat) (n : Nat) : String :=
  String.mk ((List.range n).map
    (fun i => letterBytes.data.getD (rng i % letterBytes.data.length) 'a'))

/-- func (c *Caller) cuid(cmd string, n int) (cuid, uid string):
returns cmd + ":" + b and b, where b is the generated identifier. -/
def cuid (cmd : String) (n : Nat) (rng : Nat → Nat) : String × String :=
  let b := genUID rng n
  (cmd ++ ":" ++ b, b)

/-- Splits a character list at its first ':' (Go strings.IndexByte with
byte 0x3A followed by the two slices); none when there is no ':'. -/
def cuidToIDAux : List Char → Option (List Char × List Char)
  | [] => none
  | c :: rest =>
      if c = ':' then some ([], rest)
      else
        match cuidToIDAux rest with
        | none => none
        | some (pre, post) => some (c :: pre, post)

/-- func (c *Caller) cuidToID(input string) (cmd, uid string):
  i := strings.IndexByte(input, 0x3A)
  if i < 0 { return "", "" }
  return input[:i], input[i+1:] -/
def cuidToID (input : String) : String × String :=
  match cuidToIDAux input.data with
  | none => ("", "")
  | some (pre, post) => (String.mk pre, String.mk post)

/-- Handlers are opaque to the registry claims; a numeric tag stands in
for the Handler interface value. -/
abbrev Handler := Nat

/-- Go strings.ToUpper as used on ASCII IRC command names: uppercase
every character. -/
def toUpper (s : String) : String :=
  String.mk (s.data.map Char.toUpper)

/-- An inner map[CUID]Handler of the Caller, as a function map. -/
def HandlerMap := String → Option Handler

/-- Go map update m[k] = v (v = none encodes delete(m, k)). -/
def update {α : Type} (m : String → Option α) (k : String) (v : Option α) :
    String → Option α :=
  fun k' => if k' = k then v else m k'

/-- The Caller's two handler namespaces, each of Go type
map[COMMAND]map[CUID]Handler, as nested function maps. The mutex and
waitgroup are erased. -/
structure Caller where
  external : String → Option HandlerMap
  internal : String → Option HandlerMap

/-- newCaller: both maps start empty. -/
def newCaller : Caller :=
  { external := fun _ => none, internal := fun _ => none }

/-- func (c *Caller) register(internal bool, cmd string, handler Handler):
  cmd = strings.ToUpper(cmd)
  ensure the inner map for cmd exists in the chosen namespace
  cuid, uid = c.cuid(cmd, 20); store handler at [cmd][uid]; return cuid -/
def register (isInternal : Bool) (cmd : String) (rng : Nat → Nat)
    (h : Handler) (c : Caller) : String × Caller :=
  let cmd := toUpper cmd
  let (cu, uid) := cuid cmd 20 rng
  if isInternal then
    let m := (c.internal cmd).getD (fun _ => none)
    (cu, { c with internal := update c.internal cmd (some (update m uid (some h))) })
  else
    let m := (c.external cmd).getD (fun _ => none)
    (cu, { c with external := update c.external cmd (some (update m uid (some h))) })

/-- func (c *Caller) remove(cuid string) (success bool), together with the
resulting registry state:
  cmd, uid := c.cuidToID(cuid)
  if len(cmd) == 0 || len(uid) == 0 { return false }
  if _, ok := c.external[cmd]; !ok { return false }
  if _, ok := c.external[cmd][uid]; !ok { return false }
  delete(c.external[cmd], uid); return true -/
def remove (cu : String) (c : Caller) : Bool × Caller :=
  let (cmd, uid) := cuidToID cu
  if cmd = "" ∨ uid = "" then (false, c)
  else
    match c.external cmd with
    | none => (false, c)
    | some m =>
        if (m uid).isSome then
          (true, { c with external := update c.external cmd (some (update m uid none)) })
        else (false, c)

/-- func (c *Caller) Remove(cuid string): remove under the lock (erased). -/
def Remove (cu : String) (c : Caller) : Bool × Caller :=
  remove cu c

/-- The map-registration part of func (c *Caller) AddTmp: the command is
used as given — AddTmp does not call strings.ToUpper —
  cuid, uid = c.cuid(cmd, 20)
  ensure c.external[cmd] exists; c.external[cmd][uid] = wrapped handler -/
def addTmpRegister (cmd : String) (rng : Nat → Nat) (h : Handler)
    (c : Caller) : String × Caller :=
  let (cu, uid) := cuid cmd 20 rng
  let m := (c.external cmd).getD (fun _ => none)
  (cu, { c with external := update c.external cmd (some (update m uid (some h))) })

/-- Whether exec(command, ...) reaches the handler stored under uid: exec
builds its stack from c.internal[command] and c.external[command], looked
up at the command exactly as passed (exec performs no case folding). -/
def inExecStack (c : Caller) (command uid : String) : Bool :=
  (match c.internal command with
   | some m => (m uid).isSome
   | none => false) ||
  (match c.external command with
   | some m => (m uid).isSome
   | none => false)

/-! ## Registration / removal round trip -/

/-- Lookup of c.external[cmd][uid] (none when either level is absent). -/
def lookupExternal (c : Caller) (cmd uid : String) : Option Handler :=
  match c.external cmd with
  | none => none
  | some m => m uid

/-- Lookup of c.internal[cmd][uid]. -/
def lookupInternal (c : Caller) (cmd uid : String) : Option Handler :=
  match c.internal cmd with
  | none => none
  | some m => m uid

/-! ## Temporary handler removal triggers -/

/-- The three events that can remove a temporary handler installed by
AddTmp: the wrapped handler returning true, the deadline goroutine
firing, and a user calling Caller.Remove with the cuid. -/
inductive TmpTrigger where
  | handlerDone
  | deadline
  | explicitRemove
deriving Repr, DecidableEq

/-- Registry state of a temporary handler's lifetime plus the number of
times close(done) has been executed. -/
structure TmpRun where
  caller : Caller
  closes : Nat

/-- What each trigger does in AddTmp / Remove:
the wrapped handler runs `if ok := c.Remove(cuid); ok { close(done) }`;
the deadline goroutine runs the same two lines after its timer; a user's
explicit Caller.Remove(cuid) only removes — it never closes done. -/
def tmpTrigger (cu : String) (t : TmpTrigger) (s : TmpRun) : TmpRun :=
  let r := Remove cu s.caller
  match t with
  | .handlerDone => { caller := r.2, closes := if r.1 then s.closes + 1 else s.closes }
  | .deadline => { caller := r.2, closes := if r.1 then s.closes + 1 else s.closes }
  | .explicitRemove => { caller := r.2, closes := s.closes }

/-- A sequence of removal triggers hitting the registry, in the order in
which the runtime serializes them through the Caller mutex. -/
def tmpRun (cu : String) (ts : List TmpTrigger) (c : Caller) : TmpRun :=
  ts.foldl (fun s t => tmpTrigger cu t s) { caller := c, closes := 0 }

/-! ## Dispatcher (handler.go, func (c *Client) RunHandlers) -/

/-- A decoded CTCP sub-protocol message; only its command name matters to
the dispatcher. Modelled from the spec: the CTCP codec is an external
collaborator (tryDecodeSubProtocol), not part of the excerpted core. -/
structure CTCPEvent where
  Command : String
deriving Repr, DecidableEq

/-- Modelled from the spec: the reserved all-events pseudo-command under
which wildcard handlers are registered (the command constants are
declared outside the excerpted source). -/
def ALLEVENTS : String := "*"

/-- One delivery step performed by RunHandlers: a fan-out through the
handler registry for a command, or an invocation of the dedicated CTCP
registry. -/
inductive DispatchAction where
  | execGroup (command : String) (ev : Event)
  | ctcpCall (command : String)
deriving Repr, DecidableEq

/-- Event.Copy hands every delivery step an independent copy; for the
pure value embedding the copy carries the same field values. -/
def copyEvent (e : Event) : Event := e

/-- func (c *Client) RunHandlers(event *Event), as its trace of delivery
steps (logging elided; decodeCTCP is the external CTCP codec, passed as
a parameter):
  if event == nil { return }
  c.Handlers.exec(ALLEVENTS, c, event.Copy())
  c.Handlers.exec(event.Command, c, event.Copy())
  if ctcp := decodeCTCP(event.Copy()); ctcp != nil { c.CTCP.call(c, ctcp) } -/
def RunHandlers (decodeCTCP : Event → Option CTCPEvent) (event : Option Event) :
    List DispatchAction :=
  match event with
  | none => []
  | some event =>
      let acts := [DispatchAction.execGroup ALLEVENTS (copyEvent event)]
      let acts := acts ++ [DispatchAction.execGroup event.Command (copyEvent event)]
      match decodeCTCP (copyEvent event) with
      | some ctcp => acts ++ [DispatchAction.ctcpCall ctcp.Command]
      | none => acts

/-! ## Connect registration handshake (conn.go, func (c *Client) Connect) -/

/-- Modelled from the spec: the IRC registration command constants
(declared outside the excerpted source). -/
def PASS : String := "PASS"

/-- Modelled from the spec: the nickname registration command constant. -/
def NICK : String := "NICK"

/-- Modelled from the spec: the user registration command constant. -/
def USER : String := "USER"

/-- The Config fields read and written by Connect's registration
handshake. -/
structure Config where
  Password : String
  Nick : String
  User : String
  Name : String
deriving Repr, DecidableEq

/-- The registration segment of func (c *Client) Connect(): the final
Config and the events pushed onto the outbound queue, in order:
  if c.Config.Password != "" { c.write(PASS, [Password]) }
  c.write(NICK, [Nick])
  if c.Config.Name == "" { c.Config.Name = c.Config.User }
  c.write(USER, [User, "+iw", "*"], Trailing: c.Config.Name)
(the capability-listing call that follows is out of this claim's scope). -/
def connectRegistration (cfg : Config) : Config × List Event :=
  let w1 : List Event :=
    if cfg.Password ≠ "" then [{ Command := PASS, Params := [cfg.Password] }] else []
  let w2 : List Event := [{ Command := NICK, Params := [cfg.Nick] }]
  let cfg := if cfg.Name = "" then { cfg with Name := cfg.User } else cfg
  let w3 : List Event :=
    [{ Command := USER, Params := [cfg.User, "+iw", "*"], Trailing := cfg.Name }]
  (cfg, w1 ++ w2 ++ w3)

/-! ## Theorems -/

/-- C1: for every message length n ≥ 0, the cost is 1s + n*1s/100; each
call to rate turns the debt into max(0, debt + cost - (now - lastWrite));
the returned wait is the full cost exactly when the resulting debt
strictly exceeds 8 seconds, and zero otherwise; lastWrite is untouched. -/
theorem rate_spec (c : ConnRateState) (chars : Nat) (now : Int) :
    rateCost chars = second + ((chars : Int) * second) / 100 ∧
    (rate c chars now).1.writeDelay
      = max 0 (c.writeDelay + rateCost chars - (now - c.lastWrite)) ∧
    (rate c chars now).2
      = (if (rate c chars now).1.writeDelay > 8 * second
          then rateCost chars else 0) ∧
    (rate c chars now).1.lastWrite = c.lastWrite := by
  refine ⟨rfl, ?_, ?_, rfl⟩
  · show (if c.writeDelay + (rateCost chars - (now - c.lastWrite)) < 0 then 0
        else c.writeDelay + (rateCost chars - (now - c.lastWrite)))
      = max 0 (c.writeDelay + rateCost chars - (now - c.lastWrite))
    rw [max_def]
    split <;> split <;> omega
  · show (if (if c.writeDelay + (rateCost chars - (now - c.lastWrite)) < 0 then 0
          else c.writeDelay + (rateCost chars - (now - c.lastWrite))) > 8 * second
        then rateCost chars else 0)
      = (if (rate c chars now).1.writeDelay > 8 * second then rateCost chars else 0)
    rfl

/-- C2 (code evaluated at the failing input): when decode fails, readLoop
pushes the error onto errs but then still pushes the nil event onto the
inbound queue and does not exit the loop — contradicting the claim that
it exits after the error without pushing anything further. -/
theorem readLoop_error_pushes_nil_and_continues :
    readLoopIter (none, some "unable to parse incoming event")
      = { errsPushed := ["unable to parse incoming event"]
        , rxPushed := [none]
        , exits := false } := by
  rfl

/-- C8 (code evaluated at the failing input): on a healthy tick (time
since last pong not above ping-delay + 60s, here 30s with a 10s delay)
the loop deadlocks acquiring the write lock while its own deferred read
unlock is pending — it never records a new last-ping time nor sends a
ping, contradicting the claim's healthy branch; the timeout branch does
push the error and exit as claimed. -/
theorem pingLoop_healthy_tick_deadlocks :
    pingTick (30 * second) 0 (10 * second) = none ∧
    pingTick (100 * second) 0 (10 * second)
      = some { timedOut := true, newLastPing := none, pingSentNonce := none } := by
  exact ⟨rfl, rfl⟩

/-! ## Properties of cuid generation and parsing -/

lemma letterBytes_getD_ne_colon {k : Nat} (hk : k < 52) :
    letterBytes.data.getD k 'a' ≠ ':' := by
  revert k
  decide

lemma genUID_no_colon (rng : Nat → Nat) (n : Nat) :
    ':' ∉ (genUID rng n).data := by
  intro hmem
  have hrep : (genUID rng n).data
      = (List.range n).map
          (fun i => letterBytes.data.getD (rng i % letterBytes.data.length) 'a') := rfl
  rw [hrep] at hmem
  rcases List.mem_map.1 hmem with ⟨i, _, hEq⟩
  have hlt : rng i % letterBytes.data.length < 52 :=
    Nat.mod_lt _ (by decide)
  exact letterBytes_getD_ne_colon hlt hEq

lemma genUID_ne_empty (rng : Nat → Nat) {n : Nat} (h : 0 < n) :
    genUID rng n ≠ "" := by
  intro hEq
  have hlen : (genUID rng n).data.length = 0 := by rw [hEq]; rfl
  have hrep : (genUID rng n).data.length
      = ((List.range n).map
          (fun i => letterBytes.data.getD (rng i % letterBytes.data.length) 'a')).length := rfl
  rw [hrep, List.length_map, List.length_range] at hlen
  omega

lemma cuidToIDAux_append (pre post : List Char) (h : ':' ∉ pre) :
    cuidToIDAux (pre ++ ':' :: post) = some (pre, post) := by
  induction pre with
  | nil => simp [cuidToIDAux]
  | cons c rest ih =>
      have hc : c ≠ ':' := fun hEq => h (hEq ▸ List.mem_cons_self c rest)
      have hrest : ':' ∉ rest := fun hmem => h (List.mem_cons_of_mem c hmem)
      simp [cuidToIDAux, hc, ih hrest]

/-- Parsing a token assembled as cmd ++ ":" ++ uid splits it back at that
very colon, provided cmd itself contains no colon. -/
lemma cuidToID_append (cmd uid : String) (h : ':' ∉ cmd.data) :
    cuidToID (cmd ++ ":" ++ uid) = (cmd, uid) := by
  have hdata : (cmd ++ ":" ++ uid).data = cmd.data ++ ':' :: uid.data := by
    rw [String.data_append, String.data_append, List.append_assoc]
    rfl
  unfold cuidToID
  rw [hdata, cuidToIDAux_append cmd.data uid.data h]

/-- C7: the cuid/cuidToID round trip holds only for command names free of
the separator character; amended to require ':' ∉ cmd, it holds for every
length n > 0 (indeed for every n). -/
theorem cuid_roundtrip (cmd : String) (n : Nat) (rng : Nat → Nat)
    (_hn : 0 < n) (hc : ':' ∉ cmd.data) :
    cuidToID (cuid cmd n rng).1 = (cmd, (cuid cmd n rng).2) := by
  unfold cuid
  exact cuidToID_append cmd (genUID rng n) hc

/-- Witness for cuid_roundtrip at cmd = "PRIVMSG", n = 20, a constant
draw stream. -/
theorem cuid_roundtrip_witness :
    0 < 20 ∧ (':' ∉ "PRIVMSG".data) ∧
    cuidToID (cuid "PRIVMSG" 20 (fun _ => 0)).1
      = ("PRIVMSG", (cuid "PRIVMSG" 20 (fun _ => 0)).2) :=
  ⟨by decide, by decide,
    cuid_roundtrip "PRIVMSG" 20 (fun _ => 0) (by decide) (by decide)⟩

/-- C7 counterexample: for the command "a:b" (containing the separator),
the token parses back to ("a", "b:a"), not to ("a:b", uid): the claim as
stated, quantified over every command name, is false. -/
theorem cuid_roundtrip_cex :
    cuidToID (cuid "a:b" 1 (fun _ => 0)).1 = ("a", "b:a") ∧
    (cuid "a:b" 1 (fun _ => 0)).2 = "a" ∧
    ("a", "b:a") ≠ (("a:b", "a") : String × String) := by
  refine ⟨by decide, by decide, by decide⟩

/-- C3 (amended): for a command whose uppercased form is nonempty and
free of ':', an external registration followed by Remove of the returned
cuid succeeds (returns true) and deletes the handler, and a second Remove
of the same cuid returns false. -/
theorem register_remove_once (cmd : String) (rng : Nat → Nat) (h : Handler)
    (c : Caller) (hc : ':' ∉ (toUpper cmd).data) (hne : toUpper cmd ≠ "") :
    (Remove (register false cmd rng h c).1 (register false cmd rng h c).2).1 = true ∧
    lookupExternal
      (Remove (register false cmd rng h c).1 (register false cmd rng h c).2).2
      (toUpper cmd) (genUID rng 20) = none ∧
    (Remove (register false cmd rng h c).1
      (Remove (register false cmd rng h c).1 (register false cmd rng h c).2).2).1
        = false := by
  have huid : genUID rng 20 ≠ "" := genUID_ne_empty rng (by norm_num)
  have hparse := cuidToID_append (toUpper cmd) (genUID rng 20) hc
  have hreg : register false cmd rng h c
      = (toUpper cmd ++ ":" ++ genUID rng 20,
         { external := update c.external (toUpper cmd)
             (some (update ((c.external (toUpper cmd)).getD (fun _ => none))
               (genUID rng 20) (some h))),
           internal := c.internal }) := rfl
  rw [hreg]
  simp only [Remove, remove, hparse, lookupExternal]
  simp [update, hne, huid]

/-- Witness for register_remove_once at cmd = "privmsg". -/
theorem register_remove_once_witness :
    (':' ∉ (toUpper "privmsg").data) ∧ (toUpper "privmsg" ≠ "") ∧
    ((Remove (register false "privmsg" (fun _ => 0) 7 newCaller).1
        (register false "privmsg" (fun _ => 0) 7 newCaller).2).1 = true ∧
     lookupExternal
       (Remove (register false "privmsg" (fun _ => 0) 7 newCaller).1
         (register false "privmsg" (fun _ => 0) 7 newCaller).2).2
       (toUpper "privmsg") (genUID (fun _ => 0) 20) = none ∧
     (Remove (register false "privmsg" (fun _ => 0) 7 newCaller).1
       (Remove (register false "privmsg" (fun _ => 0) 7 newCaller).1
         (register false "privmsg" (fun _ => 0) 7 newCaller).2).2).1 = false) :=
  ⟨by decide, by decide,
    register_remove_once "privmsg" (fun _ => 0) 7 newCaller (by decide) (by decide)⟩

/-- C3 counterexample: registering the command "a:b" stores the handler
under "A:B", but the returned cuid "A:B:..." parses to command "A", so
even the FIRST Remove of the returned cuid returns false (the handler is
registered, yet never removable): the claim fails as universally stated. -/
theorem register_remove_cex :
    lookupExternal (register false "a:b" (fun _ => 0) 7 newCaller).2
      "A:B" (genUID (fun _ => 0) 20) = some 7 ∧
    (Remove (register false "a:b" (fun _ => 0) 7 newCaller).1
      (register false "a:b" (fun _ => 0) 7 newCaller).2).1 = false := by
  exact ⟨by decide, by decide⟩

/-! ## Command-name normalization (register vs AddTmp) -/

/-- C4 (code evaluated at the failing input): register stores under the
uppercased command for every input (first conjunct, universally), but
AddTmp stores under the command exactly as given: a temporary handler
added for "privmsg" is reached by exec("privmsg") and missed by
exec("PRIVMSG"), contradicting the normalization claim and the Caller
comment that map commands are always uppercase. -/
theorem addTmp_not_normalized :
    (∀ (cmd : String) (rng : Nat → Nat) (h : Handler) (c : Caller),
      lookupExternal (register false cmd rng h c).2 (toUpper cmd) (genUID rng 20)
        = some h) ∧
    inExecStack (addTmpRegister "privmsg" (fun _ => 0) 3 newCaller).2
      "PRIVMSG" (genUID (fun _ => 0) 20) = false ∧
    inExecStack (addTmpRegister "privmsg" (fun _ => 0) 3 newCaller).2
      "privmsg" (genUID (fun _ => 0) 20) = true ∧
    inExecStack (register false "privmsg" (fun _ => 0) 3 newCaller).2
      "PRIVMSG" (genUID (fun _ => 0) 20) = true := by
  refine ⟨?_, by decide, by decide, by decide⟩
  intro cmd rng h c
  simp [register, cuid, lookupExternal, update]

lemma caller_ext (a b : Caller) (h1 : a.external = b.external)
    (h2 : a.internal = b.internal) : a = b := by
  cases a; cases b
  cases h1; cases h2
  rfl

/-- Full characterization of remove: the internal namespace is never
touched; success holds exactly when the parsed command and id are
nonempty and present externally; the external namespace is the one-point
deletion on success and untouched on failure. -/
lemma remove_spec (cu : String) (c : Caller) :
    (remove cu c).2.internal = c.internal ∧
    (remove cu c).1
      = (!((cuidToID cu).1 == "" || (cuidToID cu).2 == "")
         && (lookupExternal c (cuidToID cu).1 (cuidToID cu).2).isSome) ∧
    (remove cu c).2.external
      = (if (remove cu c).1
         then update c.external (cuidToID cu).1
           (some (update ((c.external (cuidToID cu).1).getD (fun _ => none))
             (cuidToID cu).2 none))
         else c.external) := by
  obtain ⟨cmd, uid, hcu⟩ : ∃ a b, cuidToID cu = (a, b) := ⟨_, _, rfl⟩
  unfold remove lookupExternal
  rw [hcu]
  by_cases hg : cmd = "" ∨ uid = ""
  · rcases hg with hg | hg <;> simp [hg]
  · rw [not_or] at hg
    rcases hg with ⟨h1, h2⟩
    rcases hm : c.external cmd with _ | m
    · simp [hm, h1, h2]
    · by_cases hu : (m uid).isSome
      · simp [hm, h1, h2, hu]
      · simp [hm, h1, h2, hu]

lemma remove_false_eq (cu : String) (c : Caller)
    (h : (remove cu c).1 = false) : (remove cu c).2 = c := by
  refine caller_ext _ _ ?_ ((remove_spec cu c).1)
  have h3 := (remove_spec cu c).2.2
  rw [h] at h3
  simpa using h3

lemma remove_after_remove (cu : String) (c : Caller)
    (h : (remove cu c).1 = true) : (remove cu (remove cu c).2).1 = false := by
  have h3 := (remove_spec cu c).2.2
  rw [h, if_pos rfl] at h3
  have hlook : lookupExternal (remove cu c).2 (cuidToID cu).1 (cuidToID cu).2
      = none := by
    unfold lookupExternal
    rw [h3]
    simp [update]
  rw [(remove_spec cu (remove cu c).2).2.1, hlook]
  simp

lemma tmpTrigger_noop (cu : String) (t : TmpTrigger) (s : TmpRun)
    (h : (Remove cu s.caller).1 = false) : tmpTrigger cu t s = s := by
  cases s with
  | mk sc scl =>
      have h2 : (remove cu sc).2 = sc := remove_false_eq cu sc h
      cases t <;> simp [tmpTrigger, Remove, h2, show (remove cu sc).1 = false from h]

lemma tmpRun_fold_noop (cu : String) (ts : List TmpTrigger) (s : TmpRun)
    (h : (Remove cu s.caller).1 = false) :
    ts.foldl (fun s t => tmpTrigger cu t s) s = s := by
  induction ts with
  | nil => rfl
  | cons t rest ih =>
      simp only [List.foldl_cons, tmpTrigger_noop cu t s h]
      exact ih

/-- C5 (amended): over any ordered sequence of removal triggers, done is
closed at most once; it is closed exactly once when the handler is
registered and the first trigger is the handler returning true or the
deadline, and zero times when the first trigger is an explicit Remove
(which removes the handler but never closes done) — the losing triggers
find the handler gone and no-op. -/
theorem tmp_done_close_count (cu : String) (c : Caller) (ts : List TmpTrigger) :
    (tmpRun cu ts c).closes =
      match ts with
      | [] => 0
      | t :: _ =>
          if (Remove cu c).1 = true ∧ t ≠ TmpTrigger.explicitRemove then 1 else 0 := by
  cases ts with
  | nil => rfl
  | cons t rest =>
      show (List.foldl (fun s t => tmpTrigger cu t s)
        (tmpTrigger cu t { caller := c, closes := 0 }) rest).closes = _
      rcases Bool.eq_false_or_eq_true ((Remove cu c).1) with hR | hR
      case inr =>
        have hs : tmpTrigger cu t { caller := c, closes := 0 }
            = { caller := c, closes := 0 } := tmpTrigger_noop cu t _ hR
        rw [hs, tmpRun_fold_noop cu rest _ hR]
        simp [hR]
      case inl =>
        have hafter : (Remove cu (Remove cu c).2).1 = false :=
          remove_after_remove cu c hR
        cases t with
        | handlerDone =>
            have hs : tmpTrigger cu TmpTrigger.handlerDone { caller := c, closes := 0 }
                = { caller := (Remove cu c).2, closes := 1 } := by
              simp [tmpTrigger, hR]
            rw [hs, tmpRun_fold_noop cu rest _ hafter]
            simp [hR]
        | deadline =>
            have hs : tmpTrigger cu TmpTrigger.deadline { caller := c, closes := 0 }
                = { caller := (Remove cu c).2, closes := 1 } := by
              simp [tmpTrigger, hR]
            rw [hs, tmpRun_fold_noop cu rest _ hafter]
            simp [hR]
        | explicitRemove =>
            have hs : tmpTrigger cu TmpTrigger.explicitRemove { caller := c, closes := 0 }
                = { caller := (Remove cu c).2, closes := 0 } := by
              simp [tmpTrigger, hR]
            rw [hs, tmpRun_fold_noop cu rest _ hafter]
            simp

/-- C5 counterexample: a temporary handler registered by AddTmp is
removable (Remove succeeds), yet when the explicit Remove trigger occurs
first and the deadline fires afterwards, done is closed zero times — not
exactly once as claimed. -/
theorem tmp_explicit_remove_no_close :
    (Remove (addTmpRegister "WHO" (fun _ => 0) 3 newCaller).1
      (addTmpRegister "WHO" (fun _ => 0) 3 newCaller).2).1 = true ∧
    (tmpRun (addTmpRegister "WHO" (fun _ => 0) 3 newCaller).1
      [TmpTrigger.explicitRemove, TmpTrigger.deadline]
      (addTmpRegister "WHO" (fun _ => 0) 3 newCaller).2).closes = 0 := by
  exact ⟨by decide, by decide⟩

/-! ## Frame conditions of Remove -/

/-- C6 (amended): Remove never modifies the internal namespace; it
succeeds exactly when the cuid parses into a nonempty command and
nonempty id that are present in the external namespace; on success the
external namespace is exactly the one-point deletion of that entry (all
other commands and ids untouched), and on failure the state is returned
unchanged. -/
theorem remove_frame (cu : String) (c : Caller) :
    (Remove cu c).2.internal = c.internal ∧
    (Remove cu c).1
      = (!((cuidToID cu).1 == "" || (cuidToID cu).2 == "")
         && (lookupExternal c (cuidToID cu).1 (cuidToID cu).2).isSome) ∧
    (Remove cu c).2.external
      = (if (Remove cu c).1
         then update c.external (cuidToID cu).1
           (some (update ((c.external (cuidToID cu).1).getD (fun _ => none))
             (cuidToID cu).2 none))
         else c.external) := by
  exact remove_spec cu c

/-- C6 counterexample: a handler registered for the empty command name is
present in the external namespace under the command parsed from its own
cuid, yet Remove of that cuid returns false and deletes nothing — the
claim that presence in the external namespace implies a successful
deletion is false. -/
theorem remove_present_not_removed_cex :
    lookupExternal (register false "" (fun _ => 0) 5 newCaller).2
      (cuidToID (register false "" (fun _ => 0) 5 newCaller).1).1
      (cuidToID (register false "" (fun _ => 0) 5 newCaller).1).2 = some 5 ∧
    (Remove (register false "" (fun _ => 0) 5 newCaller).1
      (register false "" (fun _ => 0) 5 newCaller).2).1 = false := by
  exact ⟨by decide, by decide⟩

/-- C9: for every non-nil event the dispatcher performs the wildcard
fan-out first, then the fan-out for the event's own command, and then a
CTCP-registry call exactly when the CTCP codec decodes the event, keyed
by the decoded CTCP command — and nothing else; a nil event produces no
steps. -/
theorem runHandlers_dispatch (dec : Event → Option CTCPEvent) (e : Event) :
    RunHandlers dec (some e)
      = [DispatchAction.execGroup ALLEVENTS e, DispatchAction.execGroup e.Command e]
        ++ (match dec e with
            | some ctcp => [DispatchAction.ctcpCall ctcp.Command]
            | none => []) ∧
    RunHandlers dec none = [] := by
  constructor
  · rcases hd : dec e with _ | ctcp <;> simp [RunHandlers, copyEvent, hd]
  · rfl

/-- C10: Connect overwrites Config.Name with Config.User exactly when
Name is empty (leaving it alone otherwise and changing no other field),
and the USER event it then enqueues carries the post-mutation Name — the
mutation happens before the enqueue and persists in the configuration. -/
theorem connect_mutates_name (cfg : Config) :
    (connectRegistration cfg).1
      = (if cfg.Name = "" then { cfg with Name := cfg.User } else cfg) ∧
    (connectRegistration cfg).2
      = (if cfg.Password ≠ "" then [{ Command := PASS, Params := [cfg.Password] }] else [])
        ++ [{ Command := NICK, Params := [cfg.Nick] }]
        ++ [{ Command := USER, Params := [cfg.User, "+iw", "*"],
              Trailing := (connectRegistration cfg).1.Name }] := by
  constructor
  · rfl
  · by_cases hn : cfg.Name = "" <;>
      by_cases hp : cfg.Password ≠ "" <;>
        simp [connectRegistration, hn, hp]

end Girc
